import Mathlib

/-!
# Verification of the simple-quad-sim quadrotor simulator

Shallow embedding of `sim.py` (quadrotor rigid-body simulator with a cascaded
controller and an online adaptive disturbance estimator) over exact real
arithmetic, together with theorems settling the specification claims.

Conventions:
* 3-vectors are `Fin 3 → ℝ`, quaternions `Fin 4 → ℝ` in scalar-first (w,x,y,z)
  layout, matching the flat `numpy` state layout of the source.
* `numpy` float arithmetic is embedded as exact real arithmetic; division by a
  zero norm (which produces NaN in the source) is additionally modelled by the
  `Option`-valued `normalizedOpt` where a claim is about that failure mode.
-/

namespace QuadSim

open scoped Matrix

noncomputable section

abbrev V3 := Fin 3 → ℝ
abbrev V9 := Fin 9 → ℝ
abbrev M33 := Matrix (Fin 3) (Fin 3) ℝ
abbrev M39 := Matrix (Fin 3) (Fin 9) ℝ
abbrev M99 := Matrix (Fin 9) (Fin 9) ℝ

/-- Dot product of two 3-vectors (`np.dot`). -/
def dot3 (a b : V3) : ℝ := a 0 * b 0 + a 1 * b 1 + a 2 * b 2

/-- Cross product of two 3-vectors (`np.cross`). -/
def cross3 (a b : V3) : V3 :=
  ![a 1 * b 2 - a 2 * b 1, a 2 * b 0 - a 0 * b 2, a 0 * b 1 - a 1 * b 0]

/-- Euclidean norm of a 3-vector (`np.linalg.norm`). -/
def norm3 (v : V3) : ℝ := Real.sqrt (dot3 v v)

/-- Source `normalized(v)`: `v / np.linalg.norm(v)` (sim.py lines 77-79). -/
def normalized (v : V3) : V3 := fun i => v i / norm3 v

/-- Option-valued model of `normalized` capturing that dividing by a zero norm
is a failure (NaN) in the source rather than a defined value. -/
def normalizedOpt (v : V3) : Option V3 :=
  if norm3 v = 0 then none else some (normalized v)

/-- Dot product of two quaternions (sum of componentwise products). -/
def dot4 (q p : Fin 4 → ℝ) : ℝ := q 0 * p 0 + q 1 * p 1 + q 2 * p 2 + q 3 * p 3

/-- Euclidean norm of a quaternion. -/
def norm4 (q : Fin 4 → ℝ) : ℝ := Real.sqrt (dot4 q q)

/-- Source `quat_mult(q, p)` = Hamilton product q ⊗ p, scalar-first layout
(sim.py lines 52-62, transcribed term by term). -/
def quat_mult (q p : Fin 4 → ℝ) : Fin 4 → ℝ :=
  ![p 0 * q 0 - q 1 * p 1 - q 2 * p 2 - q 3 * p 3,
    q 1 * p 0 + q 0 * p 1 + q 2 * p 3 - q 3 * p 2,
    q 2 * p 0 + q 0 * p 2 + q 3 * p 1 - q 1 * p 3,
    q 3 * p 0 + q 0 * p 3 + q 1 * p 2 - q 2 * p 1]

/-- Source `quat_conjugate(q)` (sim.py lines 65-66). -/
def quat_conjugate (q : Fin 4 → ℝ) : Fin 4 → ℝ := ![q 0, -q 1, -q 2, -q 3]

/-- Source `quaternion_from_vectors(v_from, v_to)` (sim.py lines 69-74):
normalize both inputs, bisect (`v_mid = normalized(v_from + v_to)`), and build
the quaternion `[dot(v_from, v_mid), *cross(v_from, v_mid)]`. -/
def quaternion_from_vectors (v_from v_to : V3) : Fin 4 → ℝ :=
  ![dot3 (normalized v_from) (normalized (normalized v_from + normalized v_to)),
    cross3 (normalized v_from) (normalized (normalized v_from + normalized v_to)) 0,
    cross3 (normalized v_from) (normalized (normalized v_from + normalized v_to)) 1,
    cross3 (normalized v_from) (normalized (normalized v_from + normalized v_to)) 2]

/-- Rotation of a 3-vector by a quaternion, the vector part of
`q ⊗ (0, v) ⊗ q*` — the sandwich product the specification uses to state what
`quaternion_from_vectors` does. -/
def rotateByQuat (q : Fin 4 → ℝ) (v : V3) : V3 :=
  ![quat_mult (quat_mult q ![0, v 0, v 1, v 2]) (quat_conjugate q) 1,
    quat_mult (quat_mult q ![0, v 0, v 1, v 2]) (quat_conjugate q) 2,
    quat_mult (quat_mult q ![0, v 0, v 1, v 2]) (quat_conjugate q) 3]

/-! ## Vehicle constants (Robot.__init__, sim.py lines 112-135) -/

/-- Robot mass `self.m = 1.0`. -/
def mMass : ℝ := 1

/-- Arm length `self.arm_length = 0.25`. -/
def arm_length : ℝ := 0.25

/-- Thrust coefficient `self.constant_thrust = 10e-4`. -/
def constant_thrust : ℝ := 10e-4

/-- Drag coefficient `self.constant_drag = 10e-6`. -/
def constant_drag : ℝ := 10e-6

/-- Inertia tensor `self.J = 0.025 * np.eye(3)`. -/
def Jmat : M33 := (0.025 : ℝ) • 1

/-- Fixed control/integration step `dt = 1.0 / CONTROL_FREQUENCY` with
`CONTROL_FREQUENCY = 200` (sim.py lines 373-374). -/
def dtc : ℝ := 1 / 200

/-! ## Rigid-body dynamics integrator (Robot.update, sim.py lines 188-231) -/

/-- Total body-frame thrust `constant_thrust * np.sum(omegas_motor**2)`
(sim.py line 197). -/
def thrustOf (om : Fin 4 → ℝ) : ℝ :=
  constant_thrust * (om 0 ^ 2 + om 1 ^ 2 + om 2 ^ 2 + om 3 ^ 2)

/-- Roll torque (sim.py lines 200-205). -/
def tau_x_of (om : Fin 4 → ℝ) : ℝ :=
  constant_thrust * (om 3 ^ 2 - om 1 ^ 2) * 2 * arm_length

/-- Pitch torque (sim.py lines 206-211). -/
def tau_y_of (om : Fin 4 → ℝ) : ℝ :=
  constant_thrust * (om 2 ^ 2 - om 0 ^ 2) * 2 * arm_length

/-- Yaw torque (sim.py lines 212-217). -/
def tau_z_of (om : Fin 4 → ℝ) : ℝ :=
  constant_drag * (om 0 ^ 2 - om 1 ^ 2 + om 2 ^ 2 - om 3 ^ 2)

/-- Body torque vector `tau_b` (sim.py line 218). -/
def tau_b_of (om : Fin 4 → ℝ) : V3 := ![tau_x_of om, tau_y_of om, tau_z_of om]

/-- Rotation matrix reconstructed from a scalar-first quaternion, as
`scipy.spatial.transform.Rotation.from_quat([x, y, z, w]).as_matrix()` does
(normalizes the quaternion, then applies the standard formula). -/
def rotMatOfQuat (q : Fin 4 → ℝ) : M33 :=
  let n := norm4 q
  let w := q 0 / n
  let x := q 1 / n
  let y := q 2 / n
  let z := q 3 / n
  Matrix.of ![![1 - 2 * (y ^ 2 + z ^ 2), 2 * (x * y - z * w), 2 * (x * z + y * w)],
              ![2 * (x * y + z * w), 1 - 2 * (x ^ 2 + z ^ 2), 2 * (y * z - x * w)],
              ![2 * (x * z - y * w), 2 * (y * z + x * w), 1 - 2 * (x ^ 2 + y ^ 2)]]

/-- Angular acceleration computed by the integrator:
`omega_dot = J_inv @ (np.cross(J @ omega, omega) + tau_b)` (sim.py line 221). -/
def omega_dot_of (omega : V3) (om : Fin 4 → ℝ) : V3 :=
  (Jmat⁻¹).mulVec (cross3 (Jmat.mulVec omega) omega + tau_b_of om)

/-- Linear acceleration `v_dot = 1/m * R @ f_b + (0,0,-9.81) + wind`
(sim.py line 220); the wind vector at the current time is a parameter. -/
def v_dot_of (q : Fin 4 → ℝ) (om : Fin 4 → ℝ) (w : V3) : V3 :=
  (1 / mMass) • (rotMatOfQuat q).mulVec ![0, 0, thrustOf om] + ![0, 0, -9.81] + w

/-- Orientation rate `q_dot = 1/2 * quat_mult(q, [0, *omega])` (sim.py line 222). -/
def q_dot_of (q : Fin 4 → ℝ) (omega : V3) : Fin 4 → ℝ :=
  fun i => 1 / 2 * quat_mult q ![0, omega 0, omega 1, omega 2] i

/-- The 13-dimensional vehicle state, named fields for the slices of the flat
`numpy` state vector (positions 0-2, velocities 3-5, scalar-first quaternion
6-9, body angular velocity 10-12). -/
structure QuadState where
  p : V3
  v : V3
  q : Fin 4 → ℝ
  omega : V3

/-- Euler-stepped (not yet renormalized) quaternion inside `Robot.update`:
the quaternion slice of `self.state + x_dot * dt` (sim.py line 226). -/
def eulerQuat (s : QuadState) (dt : ℝ) : Fin 4 → ℝ :=
  fun i => s.q i + q_dot_of s.q s.omega i * dt

/-- One call of `Robot.update` (sim.py lines 188-231): explicit Euler step of
all thirteen states followed by renormalization of the quaternion slice. -/
def robotUpdate (s : QuadState) (om : Fin 4 → ℝ) (w : V3) (dt : ℝ) : QuadState where
  p := fun i => s.p i + s.v i * dt
  v := fun i => s.v i + v_dot_of s.q om w i * dt
  q := fun i => eulerQuat s dt i / norm4 (eulerQuat s dt)
  omega := fun i => s.omega i + omega_dot_of s.omega om i * dt

/-- Outcome of the end-of-update horizon check (sim.py lines 257-260): the
source calls `exit("Simulation finished")`, i.e. terminates the whole process;
`processExit` models that abrupt termination, `continue_` a normal return. -/
inductive SimOutcome where
  | continue_ : SimOutcome
  | processExit : SimOutcome
deriving DecidableEq

/-- The branch taken at the end of `Robot.update` as a function of the already
advanced simulated time: `if self.time > 15: ... exit("Simulation finished")`
(sim.py lines 257-260). -/
def updateOutcome (tNew : ℝ) : SimOutcome :=
  if 15 < tNew then SimOutcome.processExit else SimOutcome.continue_

/-! ## Basic facts about the helpers -/

theorem dot3_self_nonneg (v : V3) : 0 ≤ dot3 v v := by
  have h0 := sq_nonneg (v 0)
  have h1 := sq_nonneg (v 1)
  have h2 := sq_nonneg (v 2)
  simp only [dot3]
  nlinarith

theorem dot3_self_pos (v : V3) (hv : v ≠ 0) : 0 < dot3 v v := by
  rcases lt_or_eq_of_le (dot3_self_nonneg v) with h | h
  · exact h
  · exfalso
    apply hv
    have h' : v 0 * v 0 + v 1 * v 1 + v 2 * v 2 = 0 := by
      simpa [dot3] using h.symm
    have h0 : v 0 = 0 := by nlinarith [sq_nonneg (v 0), sq_nonneg (v 1), sq_nonneg (v 2)]
    have h1 : v 1 = 0 := by nlinarith [sq_nonneg (v 0), sq_nonneg (v 1), sq_nonneg (v 2)]
    have h2 : v 2 = 0 := by nlinarith [sq_nonneg (v 0), sq_nonneg (v 1), sq_nonneg (v 2)]
    funext i
    fin_cases i <;> simpa

theorem norm3_pos (v : V3) (hv : v ≠ 0) : 0 < norm3 v :=
  Real.sqrt_pos.mpr (dot3_self_pos v hv)

theorem norm3_sq (v : V3) : norm3 v ^ 2 = dot3 v v :=
  Real.sq_sqrt (dot3_self_nonneg v)

/-- A normalized nonzero vector is a unit vector. -/
theorem dot3_normalized_self (v : V3) (hv : v ≠ 0) :
    dot3 (normalized v) (normalized v) = 1 := by
  have hpos := dot3_self_pos v hv
  have hn := norm3_sq v
  have hne : norm3 v ≠ 0 := ne_of_gt (norm3_pos v hv)
  simp only [normalized, dot3] at hn ⊢
  field_simp
  nlinarith [hn]

/-! ## Controller constants (Robot.control / Robot.__init__) -/

/-- Position gain `k_p = 2` (sim.py line 282). -/
def k_p : ℝ := 2

/-- Velocity gain `k_d = 5` (sim.py line 283). -/
def k_d : ℝ := 5

/-- Attitude gain `k_q = 20.0` (sim.py line 317). -/
def k_q : ℝ := 20

/-- Rate gain `k_omega = 100.0` (sim.py line 318). -/
def k_omega : ℝ := 100

/-- Estimator forgetting rate `self.l = 1e-3` (sim.py line 172). -/
def lconst : ℝ := 1e-3

/-- Estimator process-noise weight `self.Q = np.eye(9) * 1e-3` (sim.py line 174). -/
def Qmat : M99 := (1e-3 : ℝ) • 1

/-- Estimator measurement-noise weight `self.R = np.eye(3)` (sim.py line 175). -/
def Rmat : M33 := 1

/-- Initial covariance `self.P = np.eye(9) * 1e-3` (sim.py line 173). -/
def P0mat : M99 := (1e-3 : ℝ) • 1

/-! ## Motor mixing (Robot.control, sim.py lines 324-354) -/

/-- Mixing matrix `B` mapping squared motor speeds to (thrust, τx, τy, τz)
(sim.py lines 324-351). -/
def Bmat : Matrix (Fin 4) (Fin 4) ℝ :=
  Matrix.of ![![constant_thrust, constant_thrust, constant_thrust, constant_thrust],
              ![0, -arm_length * constant_thrust, 0, arm_length * constant_thrust],
              ![-arm_length * constant_thrust, 0, arm_length * constant_thrust, 0],
              ![constant_drag, -constant_drag, constant_drag, -constant_drag]]

/-- Explicit inverse of `Bmat` (the source computes it as `np.linalg.inv(B)`);
`Bmat_mul_BmatInv` and `Bmat_inv_eq` below justify it. -/
def BmatInv : Matrix (Fin 4) (Fin 4) ℝ :=
  Matrix.of ![![250, 0, -2000, 25000],
              ![250, -2000, 0, -25000],
              ![250, 0, 2000, 25000],
              ![250, 2000, 0, -25000]]

theorem Bmat_mul_BmatInv : Bmat * BmatInv = 1 := by
  ext i j
  fin_cases i <;> fin_cases j <;>
    simp [Bmat, BmatInv, Matrix.mul_apply, Fin.sum_univ_four, constant_thrust,
      constant_drag, arm_length, Matrix.one_apply] <;> norm_num

theorem Bmat_inv_eq : Bmat⁻¹ = BmatInv :=
  Matrix.inv_eq_right_inv Bmat_mul_BmatInv

/-- Squared motor speeds solved by the mixing step,
`omega_motor_square = B_inv @ [thrust, *tau]` (sim.py lines 352-353). -/
def mixSolve (thrust tx ty tz : ℝ) : Fin 4 → ℝ :=
  (Bmat⁻¹).mulVec ![thrust, tx, ty, tz]

/-- Motor speeds produced by the mixing step,
`omega_motor = np.sqrt(np.clip(omega_motor_square, 0, None))` (sim.py line 354). -/
def mixMotor (thrust tx ty tz : ℝ) : Fin 4 → ℝ :=
  fun i => Real.sqrt (max 0 (mixSolve thrust tx ty tz i))

/-! ## Adaptive estimator and cascaded controller (Robot.control, lines 275-363) -/

/-- Tracking-error surrogate `s = v_I - v_r` with `v_r = -k_p * (p_I - p_d_I)`
(sim.py lines 284-285). -/
def sOf (p v p_d : V3) : V3 := v - (-k_p) • (p - p_d)

/-- Nominal PD desired acceleration `a = -k_d * s + [0, 0, 9.81]`
(sim.py line 286). -/
def aNominal (s : V3) : V3 := (-k_d) • s + ![0, 0, 9.81]

/-- One parameter update of the adaptive estimate, transcribing sim.py lines
290-292: `a_hat_dot = -l*a_hat + P@Phi.T@s - P@Phi.T@inv(R)@(Phi@a_hat - wind)`
followed by `a_hat += a_hat_dot * dt`. -/
def aHatStep (Phi : M39) (w s : V3) (aHat : V9) (P : M99) : V9 :=
  aHat + dtc • ((-lconst) • aHat + P.mulVec (Phiᵀ.mulVec s)
    - P.mulVec (Phiᵀ.mulVec ((Rmat⁻¹).mulVec (Phi.mulVec aHat - w))))

/-- One covariance update, transcribing sim.py lines 294-295:
`P_dot = -2*l*P + Q - P@Phi.T@inv(R)@Phi@P` followed by `P += P_dot * dt`. -/
def Pstep (Phi : M39) (P : M99) : M99 :=
  P + dtc • ((-(2 * lconst)) • P + Qmat - P * Phiᵀ * Rmat⁻¹ * Phi * P)

/-- Covariance along a run: `self.P` starts at `np.eye(9) * 1e-3` and gets one
`Pstep` per control tick, with the tick's regressor `Phis n`. -/
def Prun (Phis : ℕ → M39) : ℕ → M99
  | 0 => P0mat
  | n + 1 => Pstep (Phis n) (Prun Phis n)

/-- Attitude controller and motor mixing applied to a desired force vector
`f`, transcribing sim.py lines 304-354 (from `f_b = R.T @ f` down to
`omega_motor = np.sqrt(np.clip(...))`). -/
def attitudeMix (q : Fin 4 → ℝ) (omega_b : V3) (f : V3) : Fin 4 → ℝ :=
  let f_b := (rotMatOfQuat q)ᵀ.mulVec f
  let thrust := max 0 (f_b 2)
  let q_ref := quaternion_from_vectors ![0, 0, 1] (normalized f)
  let q_err0 := quat_mult (quat_conjugate q_ref) q
  let q_err := if q_err0 0 < 0 then (fun i => -q_err0 i) else q_err0
  let omega_ref : V3 := (-(k_q * 2)) • ![q_err 1, q_err 2, q_err 3]
  let alpha := (-k_omega) • (omega_b - omega_ref)
  let tau := Jmat.mulVec alpha
  mixMotor thrust (tau 0) (tau 1) (tau 2)

/-- Full `Robot.control` call with the adaptive path enabled (`self.nf`),
transcribing sim.py lines 275-363 line by line: returns the updated `a_hat`,
the updated `P`, and the motor command.  `Phi` is the regressor built from the
external feature map, `w` the wind vector at the current time, `v_prev` the
stored `self.v_I_prev`. -/
def controlNF (Phi : M39) (w : V3) (p v : V3) (q : Fin 4 → ℝ) (omega_b : V3)
    (p_d : V3) (aHat : V9) (P : M99) (v_prev : V3) :
    V9 × M99 × (Fin 4 → ℝ) :=
  let v_r := (-k_p) • (p - p_d)
  let s := v - v_r
  let a0 := (-k_d) • s + ![0, 0, 9.81]
  let a_hat_dot := (-lconst) • aHat + P.mulVec (Phiᵀ.mulVec s)
    - P.mulVec (Phiᵀ.mulVec ((Rmat⁻¹).mulVec (Phi.mulVec aHat - w)))
  let aHat1 := aHat + dtc • a_hat_dot
  let P_dot := (-(2 * lconst)) • P + Qmat - P * Phiᵀ * Rmat⁻¹ * Phi * P
  let P1 := P + dtc • P_dot
  let a_I : V3 := fun i => (v i - v_prev i) / dtc
  let a := a0 + a_I - Phi.mulVec aHat1
  (aHat1, P1, attitudeMix q omega_b (mMass • a))

/-- Motor command of the adaptive control path, parameterized by which
parameter estimate `aUsed` feeds the adaptive correction
`a += a_I - Phi @ aUsed` (sim.py line 299).  The claim under test asserts the
returned command equals this at the tick-entry `a_hat`; the source feeds the
already updated `a_hat`. -/
def nfCommandWith (Phi : M39) (p v : V3) (q : Fin 4 → ℝ) (omega_b : V3)
    (p_d : V3) (aUsed : V9) (v_prev : V3) : Fin 4 → ℝ :=
  let s := sOf p v p_d
  let a_I : V3 := fun i => (v i - v_prev i) / dtc
  let a := aNominal s + a_I - Phi.mulVec aUsed
  attitudeMix q omega_b (mMass • a)

/-- Desired force vector `f = self.m * a` computed inside `Robot.control`
(sim.py line 303), on the adaptive path. -/
def controlDesiredForce (Phi : M39) (w : V3) (p v : V3) (p_d : V3)
    (aHat : V9) (P : M99) (v_prev : V3) : V3 :=
  let s := sOf p v p_d
  let a_I : V3 := fun i => (v i - v_prev i) / dtc
  mMass • (aNominal s + a_I - Phi.mulVec (aHatStep Phi w s aHat P))

/-! ## Wind model, setup validation, desired-trajectory log -/

/-- Source `Robot.wind` (sim.py lines 365-369), `om = 0.5`, `phi = 0`: an
`if/elif` chain with no `else`, so an unknown kind falls through and the
function returns Python `None` — modelled as `Option.none`. -/
def windOpt (kind : String) (mag : ℝ) (t : ℝ) : Option V3 :=
  if kind = "const" then some (fun i => ![1, 0, 0] i * mag)
  else if kind = "sin" then some (fun i => ![1, 0, 0] i * mag * Real.sin (0.5 * t + 0))
  else none

/-- Modelled from the spec: the list `VALID_WINDS` lives in the repository's
`params.py`, which is not among the provided sources; per the spec the valid
wind kinds are exactly the constant (`const`) and sinusoidal (`sin`) presets. -/
def VALID_WINDS : List String := ["const", "sin"]

/-- Setup-time acceptance of a wind kind: `argparse` is invoked with
`choices=VALID_WINDS` (sim.py lines 27-33), so any other kind is rejected
before the simulation starts. -/
def setupAcceptsWind (kind : String) : Bool := kind ∈ VALID_WINDS

/-- Stored previous desired position before tick `n` (ticks counted from 0):
`self.p_d_I` is initialized to the scalar `0` (sim.py line 167), which numpy
broadcasts to the zero vector in `(p_d_I - self.p_d_I) / dt`; each control call
then stores the tick's reference (sim.py line 358). -/
def pdStored (refs : ℕ → V3) : ℕ → V3
  | 0 => 0
  | n + 1 => refs n

/-- Desired velocity logged during tick `n`:
`self.v_d_I = (p_d_I - self.p_d_I) / dt` (sim.py line 357). -/
def vdLogged (refs : ℕ → V3) (n : ℕ) : V3 :=
  fun i => (refs n i - pdStored refs n i) / dtc

/-! ## Further helper lemmas -/

theorem Jmat_mulVec (x : V3) : Jmat.mulVec x = (0.025 : ℝ) • x := by
  rw [Jmat, Matrix.smul_mulVec_assoc, Matrix.one_mulVec]

theorem cross3_smul_left (c : ℝ) (v : V3) : cross3 (c • v) v = 0 := by
  funext i
  fin_cases i <;> simp [cross3] <;> ring

theorem cross3_smul_right (c : ℝ) (v : V3) : cross3 v (c • v) = 0 := by
  funext i
  fin_cases i <;> simp [cross3] <;> ring

theorem dot4_self_nonneg (q : Fin 4 → ℝ) : 0 ≤ dot4 q q := by
  have h0 := sq_nonneg (q 0)
  have h1 := sq_nonneg (q 1)
  have h2 := sq_nonneg (q 2)
  have h3 := sq_nonneg (q 3)
  simp only [dot4]
  nlinarith

theorem dot4_self_pos (q : Fin 4 → ℝ) (hq : q ≠ 0) : 0 < dot4 q q := by
  rcases lt_or_eq_of_le (dot4_self_nonneg q) with h | h
  · exact h
  · exfalso
    apply hq
    have h' : q 0 * q 0 + q 1 * q 1 + q 2 * q 2 + q 3 * q 3 = 0 := by
      simpa [dot4] using h.symm
    have h0 : q 0 = 0 := by
      nlinarith [sq_nonneg (q 0), sq_nonneg (q 1), sq_nonneg (q 2), sq_nonneg (q 3)]
    have h1 : q 1 = 0 := by
      nlinarith [sq_nonneg (q 0), sq_nonneg (q 1), sq_nonneg (q 2), sq_nonneg (q 3)]
    have h2 : q 2 = 0 := by
      nlinarith [sq_nonneg (q 0), sq_nonneg (q 1), sq_nonneg (q 2), sq_nonneg (q 3)]
    have h3 : q 3 = 0 := by
      nlinarith [sq_nonneg (q 0), sq_nonneg (q 1), sq_nonneg (q 2), sq_nonneg (q 3)]
    funext i
    fin_cases i <;> simpa

theorem norm4_sq (q : Fin 4 → ℝ) : norm4 q ^ 2 = dot4 q q :=
  Real.sq_sqrt (dot4_self_nonneg q)

/-! ## Claim C3: angular acceleration satisfies the rigid-body Euler equation -/

/-- C3 (confirmed).  For every body angular velocity and every motor command,
the angular acceleration computed by the integrator equals
`J⁻¹ · (ω × (J·ω) + body torque)`, with `J = 0.025·I` the program's inertia
tensor.  The source writes the gyroscopic term as `np.cross(J @ omega, omega)`
(the reversed order), but since `J` is a scalar multiple of the identity both
cross products vanish identically, so the two formulas agree exactly. -/
theorem angular_acceleration_euler_equation (omega : V3) (om : Fin 4 → ℝ) :
    omega_dot_of omega om
      = (Jmat⁻¹).mulVec (cross3 omega (Jmat.mulVec omega) + tau_b_of om) := by
  rw [omega_dot_of, Jmat_mulVec, cross3_smul_left, cross3_smul_right]

/-! ## Claim C4: the integrator returns a unit-norm quaternion -/

/-- C4 (confirmed).  For any input state, motor command, wind and step whose
Euler-stepped quaternion is nonzero, the orientation slice of the state
returned by `Robot.update` has unit norm, in exact arithmetic (the source
divides the stepped quaternion by its norm, sim.py lines 226-229). -/
theorem update_quaternion_unit_norm (s : QuadState) (om : Fin 4 → ℝ) (w : V3)
    (dt : ℝ) (h : eulerQuat s dt ≠ 0) :
    norm4 ((robotUpdate s om w dt).q) = 1 := by
  have hpos : 0 < dot4 (eulerQuat s dt) (eulerQuat s dt) := dot4_self_pos _ h
  have hn : 0 < norm4 (eulerQuat s dt) := Real.sqrt_pos.mpr hpos
  have hsq := norm4_sq (eulerQuat s dt)
  have hone : dot4 ((robotUpdate s om w dt).q) ((robotUpdate s om w dt).q) = 1 := by
    show dot4 (fun i => eulerQuat s dt i / norm4 (eulerQuat s dt))
        (fun i => eulerQuat s dt i / norm4 (eulerQuat s dt)) = 1
    simp only [dot4] at hsq ⊢
    field_simp
    nlinarith [hsq]
  rw [norm4, hone, Real.sqrt_one]

/-- Witness for C4 at a concrete hovering state: identity quaternion, zero
rates, `dt = 1/200`. -/
theorem update_quaternion_unit_norm_witness :
    eulerQuat ⟨![1, 0, 1], ![0, 0, 0], ![1, 0, 0, 0], ![0, 0, 0]⟩ (1 / 200) ≠ 0 ∧
    norm4 ((robotUpdate ⟨![1, 0, 1], ![0, 0, 0], ![1, 0, 0, 0], ![0, 0, 0]⟩
      ![0, 0, 0, 0] ![0, 0, 0] (1 / 200)).q) = 1 := by
  have hne : eulerQuat ⟨![1, 0, 1], ![0, 0, 0], ![1, 0, 0, 0], ![0, 0, 0]⟩
      (1 / 200) ≠ 0 := by
    intro hcontra
    have h0 := congrFun hcontra 0
    norm_num [eulerQuat, q_dot_of, quat_mult] at h0
  exact ⟨hne, update_quaternion_unit_norm _ _ _ _ hne⟩

/-! ## Claim C8: horizon crossing terminates the process -/

/-- C8 (code_bug evidence).  Once the advanced simulated time exceeds the
fixed 15 s horizon, the branch taken by `Robot.update` is the abrupt
`exit("Simulation finished")` process termination (sim.py lines 257-260); the
completion is not surfaced as a status or return value (`Robot.update` has no
return statement at all). -/
theorem horizon_triggers_process_exit :
    updateOutcome (15 + dtc) = SimOutcome.processExit := by
  rw [updateOutcome, if_pos]
  rw [dtc]
  norm_num

/-! ## Claim C9: unknown wind kinds fall through silently -/

/-- C9 (code_bug evidence).  `Robot.wind` is an `if/elif` chain with no
`else` (sim.py lines 365-369): called with any kind outside
`{const, sin}` it silently returns Python `None` (here `Option.none`) instead
of raising, for every magnitude and time.  Setup-time `argparse` validation
(`choices=VALID_WINDS`) is what keeps such kinds out of real runs. -/
theorem unknown_wind_kind_returns_none (mag t : ℝ) :
    setupAcceptsWind "gust" = false ∧ windOpt "gust" mag t = none := by
  constructor
  · decide
  · rw [windOpt, if_neg (by decide), if_neg (by decide)]

/-! ## Claim C10: first-tick desired-velocity spike -/

/-- C10 (confirmed).  The stored previous desired position starts as the
scalar `0` (sim.py line 167, broadcast by numpy), so the desired velocity
logged on the very first control tick is `p_d / dt` — a `1/dt`-scaled spike —
while on every later tick it is the finite difference of two consecutive
reference samples. -/
theorem first_tick_desired_velocity_spike (refs : ℕ → V3) :
    vdLogged refs 0 = (1 / dtc) • refs 0 ∧
    ∀ n : ℕ, vdLogged refs (n + 1) = (1 / dtc) • (refs (n + 1) - refs n) := by
  constructor
  · funext i
    simp [vdLogged, pdStored]
    ring
  · intro n
    funext i
    simp [vdLogged, pdStored]
    ring

/-! ## Claim C6: covariance symmetry -/

/-- C6 (confirmed).  In exact arithmetic the covariance stays symmetric: one
Riccati-style tick update `P += (−2λ·P + Q − P·Φᵗ·R⁻¹·Φ·P)·dt` preserves
symmetry (with the program's diagonal `Q` and `R = I`), the initialization
`P = 10⁻³·I` is symmetric, and hence by induction `P` is symmetric at every
tick of every run, whatever regressors the ticks produce. -/
theorem covariance_symmetric :
    (∀ (Phi : M39) (P : M99), Pᵀ = P → (Pstep Phi P)ᵀ = Pstep Phi P) ∧
    P0matᵀ = P0mat ∧
    ∀ (Phis : ℕ → M39) (n : ℕ), (Prun Phis n)ᵀ = Prun Phis n := by
  have hstep : ∀ (Phi : M39) (P : M99), Pᵀ = P → (Pstep Phi P)ᵀ = Pstep Phi P := by
    intro Phi P hP
    simp only [Pstep, Qmat, Rmat, inv_one, Matrix.transpose_add,
      Matrix.transpose_sub, Matrix.transpose_smul, Matrix.transpose_mul,
      Matrix.transpose_one, Matrix.transpose_transpose, hP]
    simp [Matrix.mul_assoc]
  have hinit : P0matᵀ = P0mat := by
    simp [P0mat, Matrix.transpose_smul]
  refine ⟨hstep, hinit, ?_⟩
  intro Phis n
  induction n with
  | zero => exact hinit
  | succ n ih => exact hstep (Phis n) (Prun Phis n) ih

/-- Witness for C6: the initial covariance is symmetric, and one update with
the zero regressor keeps it symmetric. -/
theorem covariance_symmetric_witness :
    P0matᵀ = P0mat ∧ (Pstep 0 P0mat)ᵀ = Pstep 0 P0mat :=
  ⟨by simp [P0mat, Matrix.transpose_smul],
   covariance_symmetric.1 0 P0mat (by simp [P0mat, Matrix.transpose_smul])⟩

/-! ## Claim C2: motor mixing versus the dynamics' thrust/torque formulas -/

/-- Components of the solved squared motor speeds, obtained by evaluating the
explicit inverse of the mixing matrix. -/
theorem mixSolve_apply (T tx ty tz : ℝ) :
    mixSolve T tx ty tz
      = ![250 * T - 2000 * ty + 25000 * tz,
          250 * T - 2000 * tx - 25000 * tz,
          250 * T + 2000 * ty + 25000 * tz,
          250 * T + 2000 * tx - 25000 * tz] := by
  funext i
  rw [mixSolve, Bmat_inv_eq]
  fin_cases i <;>
    simp [BmatInv, Matrix.mulVec, Matrix.dotProduct, Fin.sum_univ_four] <;> ring

theorem mixMotor_sq (T tx ty tz : ℝ) (i : Fin 4)
    (h : 0 ≤ mixSolve T tx ty tz i) :
    mixMotor T tx ty tz i ^ 2 = mixSolve T tx ty tz i := by
  rw [mixMotor, Real.sq_sqrt (le_max_left 0 _), max_eq_right h]

/-- C2 counterexample.  At the commanded thrust/torque
`(1/250, 1/4000, 0, 0)` every solved squared motor speed is non-negative
(they are `(1, 1/2, 1, 3/2)`), yet the integrator's roll-torque formula
applied to the mixed motor speeds yields `1/2000`, not the commanded
`1/4000`: the dynamics scale the paired difference by `2·arm_length` while
the mixing matrix row uses `arm_length`, so roll/pitch torques come back
doubled. -/
theorem mixing_roll_torque_not_recovered :
    tau_x_of (mixMotor (1 / 250) (1 / 4000) 0 0) ≠ 1 / 4000 := by
  have hs := mixSolve_apply (1 / 250) (1 / 4000) 0 0
  have h1 : mixSolve (1 / 250) (1 / 4000) 0 0 1 = 1 / 2 := by
    rw [hs]; norm_num
  have h3 : mixSolve (1 / 250) (1 / 4000) 0 0 3 = 3 / 2 := by
    rw [hs]; norm_num
  have m1 : mixMotor (1 / 250) (1 / 4000) 0 0 1 ^ 2 = 1 / 2 := by
    rw [mixMotor_sq _ _ _ _ _ (by rw [h1]; norm_num), h1]
  have m3 : mixMotor (1 / 250) (1 / 4000) 0 0 3 ^ 2 = 3 / 2 := by
    rw [mixMotor_sq _ _ _ _ _ (by rw [h3]; norm_num), h3]
  rw [tau_x_of, m1, m3, constant_thrust, arm_length]
  norm_num

/-- C2 (corrected).  The mixing step is a one-sided inverse of the dynamics'
allocation only for thrust and yaw: whenever the solved squared motor speeds
are all non-negative, applying the integrator's formulas to the mixed motor
speeds recovers the commanded thrust and yaw torque exactly, but recovers
exactly twice the commanded roll and pitch torques. -/
theorem mixing_inverse_amended (T tx ty tz : ℝ)
    (h : ∀ i, 0 ≤ mixSolve T tx ty tz i) :
    thrustOf (mixMotor T tx ty tz) = T ∧
    tau_z_of (mixMotor T tx ty tz) = tz ∧
    tau_x_of (mixMotor T tx ty tz) = 2 * tx ∧
    tau_y_of (mixMotor T tx ty tz) = 2 * ty := by
  have k0 := mixMotor_sq T tx ty tz 0 (h 0)
  have k1 := mixMotor_sq T tx ty tz 1 (h 1)
  have k2 := mixMotor_sq T tx ty tz 2 (h 2)
  have k3 := mixMotor_sq T tx ty tz 3 (h 3)
  have hs := mixSolve_apply T tx ty tz
  rw [hs] at k0 k1 k2 k3
  simp only [Matrix.cons_val_zero, Matrix.cons_val_one, Matrix.head_cons] at k0 k1
  have k2' : mixMotor T tx ty tz 2 ^ 2 = 250 * T + 2000 * ty + 25000 * tz := by
    rw [k2]; simp
  have k3' : mixMotor T tx ty tz 3 ^ 2 = 250 * T + 2000 * tx - 25000 * tz := by
    rw [k3]; simp [Fin.isValue]
  refine ⟨?_, ?_, ?_, ?_⟩
  · rw [thrustOf, k0, k1, k2', k3', constant_thrust]; ring
  · rw [tau_z_of, k0, k1, k2', k3', constant_drag]; ring
  · rw [tau_x_of, k1, k3', constant_thrust, arm_length]; ring
  · rw [tau_y_of, k0, k2', constant_thrust, arm_length]; ring

/-- Witness for C2's amended statement at the commanded input
`(1/250, 1/4000, 0, 0)`, whose solved squared speeds are all non-negative. -/
theorem mixing_inverse_amended_witness :
    (∀ i, 0 ≤ mixSolve (1 / 250) (1 / 4000) 0 0 i) ∧
    thrustOf (mixMotor (1 / 250) (1 / 4000) 0 0) = 1 / 250 ∧
    tau_z_of (mixMotor (1 / 250) (1 / 4000) 0 0) = 0 ∧
    tau_x_of (mixMotor (1 / 250) (1 / 4000) 0 0) = 2 * (1 / 4000) ∧
    tau_y_of (mixMotor (1 / 250) (1 / 4000) 0 0) = 2 * 0 := by
  have h : ∀ i, 0 ≤ mixSolve (1 / 250) (1 / 4000) 0 0 i := by
    intro i
    rw [mixSolve_apply]
    fin_cases i <;> norm_num
  exact ⟨h, mixing_inverse_amended (1 / 250) (1 / 4000) 0 0 h⟩

/-! ## Claim C5: correctness of quaternion_from_vectors -/

/-- Lagrange identity in three dimensions. -/
theorem lagrange3 (a b : V3) :
    dot3 a b ^ 2 + cross3 a b 0 ^ 2 + cross3 a b 1 ^ 2 + cross3 a b 2 ^ 2
      = dot3 a a * dot3 b b := by
  simp only [dot3, cross3, Matrix.cons_val_zero, Matrix.cons_val_one,
    Matrix.head_cons, Matrix.cons_val_two, Matrix.tail_cons]
  ring

/-- A unit vector is unchanged by `normalized`. -/
theorem normalized_of_unit (v : V3) (hv : dot3 v v = 1) : normalized v = v := by
  funext i
  rw [normalized, norm3, hv, Real.sqrt_one, div_one]

/-- Components of the sandwich product of the quaternion `(a·b, a×b)` acting
on `a`: a polynomial identity, valid for arbitrary vectors. -/
theorem sandwich_components (a b : V3) :
    quat_mult (quat_mult ![dot3 a b, cross3 a b 0, cross3 a b 1, cross3 a b 2]
        ![0, a 0, a 1, a 2])
      (quat_conjugate ![dot3 a b, cross3 a b 0, cross3 a b 1, cross3 a b 2]) 0
      = 0 ∧
    quat_mult (quat_mult ![dot3 a b, cross3 a b 0, cross3 a b 1, cross3 a b 2]
        ![0, a 0, a 1, a 2])
      (quat_conjugate ![dot3 a b, cross3 a b 0, cross3 a b 1, cross3 a b 2]) 1
      = 2 * dot3 a b * dot3 a a * b 0 - dot3 a a * dot3 b b * a 0 ∧
    quat_mult (quat_mult ![dot3 a b, cross3 a b 0, cross3 a b 1, cross3 a b 2]
        ![0, a 0, a 1, a 2])
      (quat_conjugate ![dot3 a b, cross3 a b 0, cross3 a b 1, cross3 a b 2]) 2
      = 2 * dot3 a b * dot3 a a * b 1 - dot3 a a * dot3 b b * a 1 ∧
    quat_mult (quat_mult ![dot3 a b, cross3 a b 0, cross3 a b 1, cross3 a b 2]
        ![0, a 0, a 1, a 2])
      (quat_conjugate ![dot3 a b, cross3 a b 0, cross3 a b 1, cross3 a b 2]) 3
      = 2 * dot3 a b * dot3 a a * b 2 - dot3 a a * dot3 b b * a 2 := by
  refine ⟨?_, ?_, ?_, ?_⟩ <;>
    simp only [quat_mult, quat_conjugate, dot3, cross3, Matrix.cons_val_zero,
      Matrix.cons_val_one, Matrix.head_cons, Matrix.cons_val_two,
      Matrix.tail_cons, Matrix.cons_val_three] <;>
    ring

/-- Scalar part of the mid-vector quaternion of two unit vectors. -/
theorem dot3_mid (f t : V3) (hf : dot3 f f = 1) (hnne : norm3 (f + t) ≠ 0) :
    dot3 f (normalized (f + t)) = (1 + dot3 f t) / norm3 (f + t) := by
  simp only [dot3] at hf
  simp only [normalized, dot3, Pi.add_apply]
  field_simp
  linear_combination hf

/-- Squared bisector norm of two unit vectors. -/
theorem norm3_sum_sq (f t : V3) (hf : dot3 f f = 1) (ht : dot3 t t = 1) :
    norm3 (f + t) ^ 2 = 2 + 2 * dot3 f t := by
  have hnsq := norm3_sq (f + t)
  have hexp : dot3 (f + t) (f + t) = dot3 f f + 2 * dot3 f t + dot3 t t := by
    simp only [dot3, Pi.add_apply]
    ring
  rw [hnsq, hexp, hf, ht]
  ring

/-- Reflection identity behind the mid-vector construction: for unit vectors
`f`, `t` with nonzero bisector, `2·(f·m)·m − f = t` where
`m = normalized (f + t)`. -/
theorem reflect_mid (f t : V3) (hf : dot3 f f = 1) (ht : dot3 t t = 1)
    (hna : f + t ≠ 0) (k : Fin 3) :
    2 * dot3 f (normalized (f + t)) * normalized (f + t) k - f k = t k := by
  have hn : 0 < norm3 (f + t) := norm3_pos _ hna
  have hn2 := norm3_sum_sq f t hf ht
  have hd : 0 < 1 + dot3 f t := by nlinarith [hn, hn2]
  have hm : normalized (f + t) k = (f k + t k) / norm3 (f + t) := by
    simp [normalized, Pi.add_apply]
  rw [dot3_mid f t hf (ne_of_gt hn), hm]
  have hstep : 2 * ((1 + dot3 f t) / norm3 (f + t)) * ((f k + t k) / norm3 (f + t))
      = 2 * (1 + dot3 f t) * (f k + t k) / norm3 (f + t) ^ 2 := by
    ring
  rw [hstep, hn2]
  have h2d : (2 : ℝ) + 2 * dot3 f t ≠ 0 := ne_of_gt (by linarith)
  field_simp
  ring

/-- Core C5 statement for unit vectors. -/
theorem qfv_unit_correct (f t : V3) (hf : dot3 f f = 1) (ht : dot3 t t = 1)
    (hna : f + t ≠ 0) :
    norm4 (quaternion_from_vectors f t) = 1 ∧
    rotateByQuat (quaternion_from_vectors f t) f = t ∧
    0 ≤ quaternion_from_vectors f t 0 ∧
    2 * quaternion_from_vectors f t 0 ^ 2 - 1 = dot3 f t := by
  have hnf := normalized_of_unit f hf
  have hnt := normalized_of_unit t ht
  have hq : quaternion_from_vectors f t
      = ![dot3 f (normalized (f + t)), cross3 f (normalized (f + t)) 0,
          cross3 f (normalized (f + t)) 1, cross3 f (normalized (f + t)) 2] := by
    simp only [quaternion_from_vectors, hnf, hnt]
  have hm : dot3 (normalized (f + t)) (normalized (f + t)) = 1 :=
    dot3_normalized_self _ hna
  have hn : 0 < norm3 (f + t) := norm3_pos _ hna
  have hnn2 := norm3_sum_sq f t hf ht
  have hd : 0 ≤ 1 + dot3 f t := by nlinarith [hn, hnn2]
  have hfm := dot3_mid f t hf (ne_of_gt hn)
  refine ⟨?_, ?_, ?_, ?_⟩
  · -- unit norm
    have hl := lagrange3 f (normalized (f + t))
    rw [hf, hm] at hl
    have hdot : dot4 (quaternion_from_vectors f t)
        (quaternion_from_vectors f t) = 1 := by
      rw [hq]
      simp only [dot4, Matrix.cons_val_zero, Matrix.cons_val_one,
        Matrix.head_cons, Matrix.cons_val_two, Matrix.tail_cons,
        Matrix.cons_val_three]
      linear_combination hl
    rw [norm4, hdot, Real.sqrt_one]
  · -- rotation property
    have hs := sandwich_components f (normalized (f + t))
    have comp0 : rotateByQuat (quaternion_from_vectors f t) f 0 = t 0 := by
      simp only [rotateByQuat, Matrix.cons_val_zero, hq, hs.2.1, hf, hm]
      have := reflect_mid f t hf ht hna 0
      linarith [this]
    have comp1 : rotateByQuat (quaternion_from_vectors f t) f 1 = t 1 := by
      simp only [rotateByQuat, Matrix.cons_val_one, Matrix.head_cons, hq,
        hs.2.2.1, hf, hm]
      have := reflect_mid f t hf ht hna 1
      linarith [this]
    have comp2 : rotateByQuat (quaternion_from_vectors f t) f 2 = t 2 := by
      simp only [rotateByQuat, Matrix.cons_val_two, Matrix.tail_cons,
        Matrix.head_cons, hq, hs.2.2.2, hf, hm]
      have := reflect_mid f t hf ht hna 2
      linarith [this]
    funext i
    fin_cases i
    · exact comp0
    · exact comp1
    · exact comp2
  · -- non-negative scalar part
    have h0 : quaternion_from_vectors f t 0 = (1 + dot3 f t) / norm3 (f + t) := by
      rw [hq]
      simp only [Matrix.cons_val_zero]
      exact hfm
    rw [h0]
    exact div_nonneg hd hn.le
  · -- rotation angle matches the angle between the vectors
    have h0 : quaternion_from_vectors f t 0 = (1 + dot3 f t) / norm3 (f + t) := by
      rw [hq]
      simp only [Matrix.cons_val_zero]
      exact hfm
    have h2d : (0 : ℝ) < 2 + 2 * dot3 f t := by
      have := norm3_pos _ hna
      nlinarith [hnn2]
    rw [h0, div_pow, hnn2]
    field_simp
    ring

/-- On nonzero inputs, the source quaternion depends only on the normalized
inputs. -/
theorem qfv_normalize (vf vt : V3) (hvf : vf ≠ 0) (hvt : vt ≠ 0) :
    quaternion_from_vectors vf vt
      = quaternion_from_vectors (normalized vf) (normalized vt) := by
  simp only [quaternion_from_vectors,
    normalized_of_unit _ (dot3_normalized_self vf hvf),
    normalized_of_unit _ (dot3_normalized_self vt hvt)]

/-- C5 (confirmed).  For nonzero inputs whose normalizations are not exactly
antiparallel (encoded as: the normalized vectors do not sum to zero),
`quaternion_from_vectors` returns a unit quaternion whose sandwich product
maps the normalized source vector exactly onto the normalized target vector;
the rotation is the shortest arc: the scalar part is non-negative and the
rotation angle θ satisfies `cos θ = 2·w² − 1 = v̂_from · v̂_to`, the cosine of
the angle between the two vectors. -/
theorem quaternion_from_vectors_correct (vf vt : V3) (hvf : vf ≠ 0)
    (hvt : vt ≠ 0) (hna : normalized vf + normalized vt ≠ 0) :
    norm4 (quaternion_from_vectors vf vt) = 1 ∧
    rotateByQuat (quaternion_from_vectors vf vt) (normalized vf) = normalized vt ∧
    0 ≤ quaternion_from_vectors vf vt 0 ∧
    2 * quaternion_from_vectors vf vt 0 ^ 2 - 1
      = dot3 (normalized vf) (normalized vt) := by
  rw [qfv_normalize vf vt hvf hvt]
  exact qfv_unit_correct (normalized vf) (normalized vt)
    (dot3_normalized_self vf hvf) (dot3_normalized_self vt hvt) hna

/-- Witness for C5 at the concrete pair `(1,0,0) → (0,1,0)`. -/
theorem quaternion_from_vectors_correct_witness :
    (![1, 0, 0] : V3) ≠ 0 ∧ (![0, 1, 0] : V3) ≠ 0 ∧
    normalized ![1, 0, 0] + normalized ![0, 1, 0] ≠ 0 ∧
    (norm4 (quaternion_from_vectors ![1, 0, 0] ![0, 1, 0]) = 1 ∧
     rotateByQuat (quaternion_from_vectors ![1, 0, 0] ![0, 1, 0])
       (normalized ![1, 0, 0]) = normalized ![0, 1, 0] ∧
     0 ≤ quaternion_from_vectors ![1, 0, 0] ![0, 1, 0] 0 ∧
     2 * quaternion_from_vectors ![1, 0, 0] ![0, 1, 0] 0 ^ 2 - 1
       = dot3 (normalized ![1, 0, 0]) (normalized ![0, 1, 0])) := by
  have h1 : (![1, 0, 0] : V3) ≠ 0 := by
    intro h
    have := congrFun h 0
    norm_num at this
  have h2 : (![0, 1, 0] : V3) ≠ 0 := by
    intro h
    have := congrFun h 1
    norm_num at this
  have hm1 : norm3 ![1, 0, 0] = 1 := by
    have hd : dot3 ![1, 0, 0] ![1, 0, 0] = 1 := by norm_num [dot3]
    rw [norm3, hd, Real.sqrt_one]
  have hm2 : norm3 ![0, 1, 0] = 1 := by
    have hd : dot3 ![0, 1, 0] ![0, 1, 0] = 1 := by norm_num [dot3]
    rw [norm3, hd, Real.sqrt_one]
  have h3 : normalized ![1, 0, 0] + normalized ![0, 1, 0] ≠ 0 := by
    intro h
    have h0 := congrFun h 0
    rw [Pi.add_apply, normalized, normalized, hm1, hm2] at h0
    norm_num at h0
  exact ⟨h1, h2, h3, quaternion_from_vectors_correct _ _ h1 h2 h3⟩

/-! ## Claims C1 and C7: the adaptive control path -/

theorem Rmat_inv : Rmat⁻¹ = 1 := by
  rw [Rmat, inv_one]

theorem P0mat_mulVec (x : V9) : P0mat.mulVec x = (1e-3 : ℝ) • x := by
  rw [P0mat, Matrix.smul_mulVec_assoc, Matrix.one_mulVec]

theorem norm3_zero : norm3 (0 : V3) = 0 := by
  have h : dot3 (0 : V3) 0 = 0 := by norm_num [dot3]
  rw [norm3, h, Real.sqrt_zero]

/-- Structural decomposition of `Robot.control`: the updated estimate is one
`aHatStep` of the tick-entry state. -/
theorem controlNF_fst (Phi : M39) (w : V3) (p v : V3) (q : Fin 4 → ℝ)
    (omega_b : V3) (p_d : V3) (aHat : V9) (P : M99) (v_prev : V3) :
    (controlNF Phi w p v q omega_b p_d aHat P v_prev).1
      = aHatStep Phi w (sOf p v p_d) aHat P := rfl

/-- Structural decomposition of `Robot.control`: the updated covariance is one
`Pstep` of the tick-entry covariance. -/
theorem controlNF_snd_fst (Phi : M39) (w : V3) (p v : V3) (q : Fin 4 → ℝ)
    (omega_b : V3) (p_d : V3) (aHat : V9) (P : M99) (v_prev : V3) :
    (controlNF Phi w p v q omega_b p_d aHat P v_prev).2.1 = Pstep Phi P := rfl

/-- Structural decomposition of `Robot.control`: the returned motor command is
the command pipeline fed with the tick's UPDATED estimate (the source updates
`self.a_hat` on line 292 before forming the correction on line 299). -/
theorem controlNF_cmd (Phi : M39) (w : V3) (p v : V3) (q : Fin 4 → ℝ)
    (omega_b : V3) (p_d : V3) (aHat : V9) (P : M99) (v_prev : V3) :
    (controlNF Phi w p v q omega_b p_d aHat P v_prev).2.2
      = nfCommandWith Phi p v q omega_b p_d
          (aHatStep Phi w (sOf p v p_d) aHat P) v_prev := rfl

/-- Rotation matrix of the identity quaternion. -/
theorem rotMat_id : rotMatOfQuat ![1, 0, 0, 0] = 1 := by
  have hd : dot4 ![(1 : ℝ), 0, 0, 0] ![1, 0, 0, 0] = 1 := by norm_num [dot4]
  have hn : norm4 ![(1 : ℝ), 0, 0, 0] = 1 := by rw [norm4, hd, Real.sqrt_one]
  ext i j
  fin_cases i <;> fin_cases j <;>
    norm_num [rotMatOfQuat, hn, Matrix.one_apply, Fin.ext_iff]

/-- Normalization of a vector pointing straight up. -/
theorem normalized_vertical (T : ℝ) (hT : 0 < T) :
    normalized ![0, 0, T] = ![0, 0, 1] := by
  have hd : dot3 ![(0 : ℝ), 0, T] ![0, 0, T] = T ^ 2 := by
    norm_num [dot3]
    ring
  have hn : norm3 ![(0 : ℝ), 0, T] = T := by
    rw [norm3, hd, Real.sqrt_sq hT.le]
  funext i
  fin_cases i <;> norm_num [normalized, hn, hT.ne']

/-- The vector-to-vector quaternion of `+z` onto itself is the identity. -/
theorem qfv_e3_e3 :
    quaternion_from_vectors ![0, 0, 1] ![0, 0, 1] = ![1, 0, 0, 0] := by
  have hu : dot3 ![(0 : ℝ), 0, 1] ![0, 0, 1] = 1 := by norm_num [dot3]
  have h1 : normalized ![(0 : ℝ), 0, 1] = ![0, 0, 1] := normalized_of_unit _ hu
  have hsum : (![(0 : ℝ), 0, 1] : V3) + ![0, 0, 1] = ![0, 0, 2] := by
    funext i
    fin_cases i <;> norm_num
  have h2 : normalized ![(0 : ℝ), 0, 2] = ![0, 0, 1] :=
    normalized_vertical 2 (by norm_num)
  funext k
  fin_cases k <;>
    norm_num [quaternion_from_vectors, h1, hsum, h2, dot3, cross3]

/-- Attitude controller and mixing on an identity orientation, zero body
rates, and a force pointing straight up: the attitude loop is inactive and
every motor gets `sqrt(thrust / (4·constant_thrust)) = sqrt(250·T)`. -/
theorem attitudeMix_vertical (T : ℝ) (hT : 0 < T) :
    attitudeMix ![1, 0, 0, 0] ![0, 0, 0] ![0, 0, T]
      = fun _ => Real.sqrt (250 * T) := by
  have hmaxT : max 0 T = T := max_eq_right hT.le
  have hmax250 : max 0 (250 * T) = 250 * T := max_eq_right (by positivity)
  funext i
  fin_cases i <;>
    norm_num [attitudeMix, rotMat_id, Matrix.transpose_one, Matrix.one_mulVec,
      normalized_vertical T hT, qfv_e3_e3, quat_conjugate, quat_mult, hmaxT,
      mixMotor, mixSolve_apply, hmax250, Jmat_mulVec, k_q, k_omega]

/-- Regressor with feature vector `(1, 0, 0)` replicated block-diagonally, a
concrete value of `compute_Phi`'s output shape (sim.py lines 262-272). -/
def PhiCx : M39 := Matrix.of fun i j => if (j : ℕ) = 3 * (i : ℕ) then 1 else 0

theorem PhiCx_transpose_mulVec (x : V3) :
    PhiCxᵀ.mulVec x = ![x 0, 0, 0, x 1, 0, 0, x 2, 0, 0] := by
  funext j
  fin_cases j <;>
    norm_num [PhiCx, Matrix.mulVec, Matrix.dotProduct, Matrix.transpose_apply,
      Fin.sum_univ_three]

theorem PhiCx_mulVec (y : V9) : PhiCx.mulVec y = ![y 0, y 3, y 6] := by
  funext i
  fin_cases i <;>
    norm_num [PhiCx, Matrix.mulVec, Matrix.dotProduct, Fin.sum_univ_succ] <;>
    rfl

/-- Evaluation of a 9-vector literal at index 3. -/
theorem vec9_at3 (a0 a1 a2 a3 a4 a5 a6 a7 a8 : ℝ) :
    (![a0, a1, a2, a3, a4, a5, a6, a7, a8] : V9) 3 = a3 := rfl

/-- Evaluation of a 9-vector literal at index 6. -/
theorem vec9_at6 (a0 a1 a2 a3 a4 a5 a6 a7 a8 : ℝ) :
    (![a0, a1, a2, a3, a4, a5, a6, a7, a8] : V9) 6 = a6 := rfl

/-- One estimator update from the initial estimator state, with tracking error
`s = (0,0,-1)` and zero wind. -/
theorem aHatStep_cx1 :
    aHatStep PhiCx 0 ![0, 0, -1] 0 P0mat
      = ![0, 0, 0, 0, 0, 0, -(1 / 200000), 0, 0] := by
  funext j
  fin_cases j <;>
    norm_num [aHatStep, Matrix.mulVec_zero, PhiCx_transpose_mulVec,
      P0mat_mulVec, dtc, lconst]

/-- One estimator update at zero tracking error and zero wind, from the
parameter value tuned so that the updated estimate cancels gravity. -/
theorem aHatStep_cx7 :
    aHatStep PhiCx 0 ![0, 0, 0] ![0, 0, 0, 0, 0, 0, 109000 / 11111, 0, 0] P0mat
      = ![0, 0, 0, 0, 0, 0, 981 / 100, 0, 0] := by
  funext j
  fin_cases j <;>
    norm_num [aHatStep, Rmat_inv, Matrix.mulVec_zero, Matrix.one_mulVec,
      PhiCx_mulVec, PhiCx_transpose_mulVec, P0mat_mulVec, dtc, lconst,
      vec9_at3, vec9_at6]

/-- C1 (corrected, amended).  On every adaptive control tick, `â` and `P` are
each updated exactly once, with update derivatives formed from the tick-entry
values; but the updates happen BEFORE the adaptive correction is formed, so
the returned motor command is computed from the tick's updated `â`, not from
the `â` held at tick entry. -/
theorem control_updates_once_command_from_updated_ahat (Phi : M39) (w : V3)
    (p v : V3) (q : Fin 4 → ℝ) (omega_b : V3) (p_d : V3) (aHat : V9) (P : M99)
    (v_prev : V3) :
    (controlNF Phi w p v q omega_b p_d aHat P v_prev).1
      = aHatStep Phi w (sOf p v p_d) aHat P ∧
    (controlNF Phi w p v q omega_b p_d aHat P v_prev).2.1 = Pstep Phi P ∧
    (controlNF Phi w p v q omega_b p_d aHat P v_prev).2.2
      = nfCommandWith Phi p v q omega_b p_d
          (aHatStep Phi w (sOf p v p_d) aHat P) v_prev :=
  ⟨controlNF_fst Phi w p v q omega_b p_d aHat P v_prev,
   controlNF_snd_fst Phi w p v q omega_b p_d aHat P v_prev,
   controlNF_cmd Phi w p v q omega_b p_d aHat P v_prev⟩

/-- C1 counterexample.  A concrete first tick (initial estimator state
`â = 0`, `P = 10⁻³·I`, zero wind, hovering at the reference with a small
downward velocity): the motor command returned by `Robot.control` differs
from the command the claim describes — the same pipeline fed with the
tick-entry `â` — because the source forms the correction from the already
updated `â`. -/
theorem control_command_not_from_entry_ahat :
    (controlNF PhiCx 0 ![1, 0, 1] ![0, 0, -1] ![1, 0, 0, 0] ![0, 0, 0]
        ![1, 0, 1] 0 P0mat ![0, 0, -1]).2.2 0
      ≠ nfCommandWith PhiCx ![1, 0, 1] ![0, 0, -1] ![1, 0, 0, 0] ![0, 0, 0]
          ![1, 0, 1] 0 ![0, 0, -1] 0 := by
  have hs : sOf ![1, 0, 1] ![0, 0, -1] ![1, 0, 1] = ![0, 0, -1] := by
    funext i
    fin_cases i <;> norm_num [sOf, k_p]
  have hcmdL : nfCommandWith PhiCx ![1, 0, 1] ![0, 0, -1] ![1, 0, 0, 0]
      ![0, 0, 0] ![1, 0, 1] ![0, 0, 0, 0, 0, 0, -(1 / 200000), 0, 0]
      ![0, 0, -1]
      = fun _ => Real.sqrt (250 * (2962001 / 200000)) := by
    have hforce : mMass • (aNominal (sOf ![1, 0, 1] ![0, 0, -1] ![1, 0, 1])
        + (fun i => (![0, 0, -1] i - ![0, 0, -1] i) / dtc)
        - PhiCx.mulVec ![0, 0, 0, 0, 0, 0, -(1 / 200000), 0, 0])
        = ![0, 0, 2962001 / 200000] := by
      funext i
      fin_cases i <;>
        norm_num [mMass, aNominal, hs, k_d, dtc, PhiCx_mulVec, vec9_at3,
          vec9_at6, Matrix.vecHead, Matrix.vecTail]
    simp only [nfCommandWith]
    rw [hforce, attitudeMix_vertical (2962001 / 200000) (by norm_num)]
  have hcmdR : nfCommandWith PhiCx ![1, 0, 1] ![0, 0, -1] ![1, 0, 0, 0]
      ![0, 0, 0] ![1, 0, 1] 0 ![0, 0, -1]
      = fun _ => Real.sqrt (250 * (1481 / 100)) := by
    have hforce : mMass • (aNominal (sOf ![1, 0, 1] ![0, 0, -1] ![1, 0, 1])
        + (fun i => (![0, 0, -1] i - ![0, 0, -1] i) / dtc)
        - PhiCx.mulVec (0 : V9))
        = ![0, 0, 1481 / 100] := by
      funext i
      fin_cases i <;>
        norm_num [mMass, aNominal, hs, k_d, dtc, Matrix.mulVec_zero,
          Matrix.vecHead, Matrix.vecTail]
    simp only [nfCommandWith]
    rw [hforce, attitudeMix_vertical (1481 / 100) (by norm_num)]
  rw [controlNF_cmd, hs, aHatStep_cx1, hcmdL, hcmdR]
  have hlt : Real.sqrt (250 * (1481 / 100)) < Real.sqrt (250 * (2962001 / 200000)) :=
    Real.sqrt_lt_sqrt (by positivity) (by norm_num)
  exact ne_of_gt hlt

/-- C7 (code_bug evidence).  There is an input on which the desired force
vector computed by `Robot.control` is exactly zero (tracking the reference
with the estimator's correction exactly cancelling gravity), yet the source
has no special case: it unconditionally evaluates
`quaternion_from_vectors([0,0,1], normalized(f))`, and `normalized` divides by
the zero norm (`normalizedOpt` returns `none`, NaN in the source); no
previous orientation command is held — indeed `Robot.control` keeps no such
state. -/
theorem zero_force_not_special_cased :
    controlDesiredForce PhiCx 0 ![1, 0, 1] ![0, 0, 0] ![1, 0, 1]
        ![0, 0, 0, 0, 0, 0, 109000 / 11111, 0, 0] P0mat ![0, 0, 0] = 0 ∧
    normalizedOpt 0 = none := by
  constructor
  · have hs : sOf ![1, 0, 1] ![0, 0, 0] ![1, 0, 1] = ![0, 0, 0] := by
      funext i
      fin_cases i <;> norm_num [sOf, k_p]
    simp only [controlDesiredForce, hs, aHatStep_cx7]
    funext i
    fin_cases i <;>
      norm_num [mMass, aNominal, k_d, dtc, PhiCx_mulVec, vec9_at3, vec9_at6,
        Matrix.vecHead, Matrix.vecTail]
  · rw [normalizedOpt, if_pos norm3_zero]

end

end QuadSim
